import Mathlib

/-!
Verification of the wgpu-mc core: the chunk mesh baker (render/world/chunk.rs),
the block variant resolver (mc/mod.rs) and the render graph (render/graph.rs),
shallowly embedded in Lean.  Rust functions that can panic are embedded as
Option-valued functions, `none` marking a panic; machine integers whose
overflow matters (the u16 mesh handles) are Nat with explicit reduction
modulo 2^16.
-/

set_option autoImplicit false

namespace WgpuMc

/-! ## Data model (mc/block.rs is not part of the sources; its shapes are
reconstructed from the spec and from how src files use them) -/

/-- Modelled from the spec: `BlockMeshVertex` (missing `mc/block.rs`).  The
baker and resolver treat vertices opaquely, so an abstract identifier
suffices. -/
abbrev BlockMeshVertex := Nat

/-- Modelled from the spec §3: `BlockstateKey`, a dense handle
`{ block: integer index, augment: integer variant index }`. -/
structure BlockstateKey where
  block : Nat
  augment : Nat

/-- Modelled from the spec §3: `ChunkBlockState`, the sum type `Air | State(BlockstateKey)`. -/
inductive ChunkBlockState where
  | Air : ChunkBlockState
  | State : BlockstateKey → ChunkBlockState

def ChunkBlockState.is_air : ChunkBlockState → Bool
  | .Air => true
  | .State _ => false

/-- Modelled from the spec §3 and the field accesses in chunk.rs: one cube
model's per-face optional vertex lists (north/south/east/west/up/down). -/
structure FaceGroup where
  north : Option (List BlockMeshVertex)
  east : Option (List BlockMeshVertex)
  south : Option (List BlockMeshVertex)
  west : Option (List BlockMeshVertex)
  up : Option (List BlockMeshVertex)
  down : Option (List BlockMeshVertex)

/-- Modelled from the spec §3: a `ModelMesh` is internally either a `Cube`
(per-face optional vertex lists) or a `Complex` list of face groups. -/
inductive CubeOrComplexMesh where
  | Cube : FaceGroup → CubeOrComplexMesh
  | Complex : List FaceGroup → CubeOrComplexMesh

/-- Modelled from the spec §3 and chunk.rs's accesses `mesh.models[0].0` /
`mesh.models[0].1`: a baked mesh is a list of models, each paired with a
boolean flag that chunk.rs reads as the neighbour-occlusion answer
(true = the face next to this mesh is still rendered). -/
structure ModelMesh where
  models : List (CubeOrComplexMesh × Bool)

/-- Modelled from the spec §4.1 / minecraft-assets schemas (external crate):
a state-property value is a bool or a string. -/
inductive StateValue where
  | bool : Bool → StateValue
  | str : String → StateValue
deriving DecidableEq

/-- String form used by `Block::get_model_by_key` (mc/mod.rs lines 75-84):
bools render as "true"/"false", strings as themselves. -/
def StateValue.render : StateValue → String
  | .bool true => "true"
  | .bool false => "false"
  | .str s => s

/-- Modelled from the spec §4.1: a multipart case holds a match condition
(exact literal matches on property values only) and the model references it
contributes when it applies. -/
structure Case where
  conds : List (String × StateValue)
  models : List Nat

/-- Modelled from the spec §4.1: `case.applies(key)` — every condition
entry must match the supplied properties exactly. -/
def Case.applies (c : Case) (props : List (String × StateValue)) : Bool :=
  c.conds.all (fun kv => decide (props.lookup kv.1 = some kv.2))

/-- Modelled from the spec §4.1 and §6: the external collaborators that
`ModelMesh::bake` consumes (resource provider + block atlas), bundled as one
pure baking function from model references to a mesh; `none` is the bake
failing (the source unwraps it).  Spec: "mesh baking must therefore be a
pure function of inputs". -/
structure BakeEnv where
  bakeMesh : List Nat → Option ModelMesh

/-- Multipart (mc/mod.rs lines 112-116): ordered list of cases plus the
lazily filled cache of canonical state string → mesh.  The RwLock-guarded
IndexMap is embedded as an insertion-ordered association list. -/
structure Multipart where
  cases : List Case
  keys : List (String × ModelMesh)

/-- Block (mc/mod.rs lines 38-42). -/
inductive Block where
  | Multipart : Multipart → Block
  | Variants : List (String × List ModelMesh) → Block

/-- BlockManager (mc/mod.rs lines 32-36); the IndexMap is an
insertion-ordered association list, `get_index i` is positional access. -/
structure BlockManager where
  blocks : List (String × Block)

/-! ## IndexMap operations (the indexmap crate as used by mc/mod.rs):
`get_full` returns (index, value); `insert` on a present key replaces the
value but keeps the original position; on an absent key it appends. -/

def idxLookupFrom {α : Type} (i : Nat) : List (String × α) → String → Option (Nat × α)
  | [], _ => none
  | kv :: rest, s => if kv.1 = s then some (i, kv.2) else idxLookupFrom (i + 1) rest s

/-- IndexMap::get_full, reduced to the (index, value) part. -/
def idxLookup {α : Type} (m : List (String × α)) (s : String) : Option (Nat × α) :=
  idxLookupFrom 0 m s

/-- IndexMap::insert: replace in place when the key is present, append when absent. -/
def idxInsert {α : Type} (m : List (String × α)) (s : String) (v : α) : List (String × α) :=
  match m with
  | [] => [(s, v)]
  | kv :: rest => if kv.1 = s then (s, v) :: rest else kv :: idxInsert rest s v

/-- Reduction of a value to u16 (`as u16`). -/
def u16ofNat (n : Nat) : Nat := n % 65536

/-- Wrapping u16 computation of `len as u16 - 1` (mc/mod.rs line 102). -/
def u16sub1 (n : Nat) : Nat := (n % 65536 + 65535) % 65536

/-! ## Block variant resolver (mc/mod.rs) -/

/-- Block::get_model (mc/mod.rs lines 45-57).  Multipart: positional access
into the cache, Variants: positional access into the variant table and then
index 0 of the candidate list ("//TODO, random variant selection through
weight and seed" — the seed argument is unused).  `none` is the source's
expect/unwrap/index panic. -/
def Block.get_model (b : Block) (key : Nat) (_seed : Nat) : Option ModelMesh :=
  match b with
  | .Multipart multipart => multipart.keys[key]?.map (·.2)
  | .Variants variants => variants[key]?.bind fun e => e.2[0]?

/-- Canonical state-key string (mc/mod.rs lines 68-87): "k=v,k=v,...". -/
def canonKey (props : List (String × StateValue)) : String :=
  String.intercalate "," (props.map (fun kv => kv.1 ++ "=" ++ kv.2.render))

/-- Multipart::generate_mesh (mc/mod.rs lines 118-143): bake the models of
every applying case into one mesh; `none` is the source's unwrap panic. -/
def Multipart.generate_mesh (m : Multipart) (env : BakeEnv)
    (props : List (String × StateValue)) : Option ModelMesh :=
  env.bakeMesh ((m.cases.filter (fun c => c.applies props)).flatMap (fun c => c.models))

/-- Block::get_model_by_key (mc/mod.rs lines 59-109), sequential embedding:
the interior mutability of the Multipart cache becomes explicit state
passing (the returned Block).  Result: outer `none` = panic, inner `none` =
the Rust function returning None (unknown Variants key).  Handles are u16:
a hit returns the entry index as u16, a miss inserts and returns
`len as u16 - 1` with wrapping subtraction. -/
def Block.get_model_by_keyS (b : Block) (env : BakeEnv)
    (props : List (String × StateValue)) (_seed : Nat) :
    Option (Option (ModelMesh × Nat)) × Block :=
  match b with
  | .Multipart multipart =>
    match idxLookup multipart.keys (canonKey props) with
    | some full => (some (some (full.2, u16ofNat full.1)), b)
    | none =>
      match multipart.generate_mesh env props with
      | none => (none, b)
      | some mesh =>
        (some (some (mesh, u16sub1 (idxInsert multipart.keys (canonKey props) mesh).length)),
         .Multipart { multipart with keys := idxInsert multipart.keys (canonKey props) mesh })
  | .Variants variants =>
    match idxLookup variants (canonKey props) with
    | none => (some none, b)
    | some full =>
      match full.2[0]? with
      | none => (none, b)
      | some c => (some (some (c, u16ofNat full.1)), b)

/-! ## Chunk mesh baker (render/world/chunk.rs) -/

/-- Modelled from the spec (glossary / §8): chunk width 16, section height
16.  The sources do not include mc/chunk.rs, so the number of sections per
chunk is not pinned down by the spec; 16 sections are used. -/
def CHUNK_WIDTH : Nat := 16

def CHUNK_AREA : Nat := CHUNK_WIDTH * CHUNK_WIDTH

def CHUNK_SECTION_HEIGHT : Nat := 16

def CHUNK_SECTION_COUNT : Nat := 16

def CHUNK_HEIGHT : Nat := CHUNK_SECTION_HEIGHT * CHUNK_SECTION_COUNT

def CHUNK_VOLUME : Nat := CHUNK_AREA * CHUNK_HEIGHT

/-- Modelled from the spec §3: a chunk carries its (x, z) position in
chunk-grid units; it is read-only during baking. -/
structure Chunk where
  pos : Int × Int

/-- Modelled from the spec §6: the block-state provider collaborator.
`get_state` takes absolute world coordinates and must be safe to query for
coordinates outside the current chunk. -/
structure BlockStateProvider where
  get_state : Int → Int → Int → ChunkBlockState
  is_section_empty : Nat → Bool

/-- get_block (render/world/chunk.rs lines 11-24): Air gives no mesh
(inner `none`); a present state is looked up positionally in the block
manager (`get_index(..).unwrap()` — an absent index panics, outer `none`)
and resolved through Block::get_model, whose own panics also surface as the
outer `none`.  (chunk.rs calls get_model with the augment only; the seed it
does not pass is irrelevant, see the C6 theorem.) -/
def get_block (bm : BlockManager) (state : ChunkBlockState) : Option (Option ModelMesh) :=
  match state with
  | .Air => some none
  | .State key =>
    match bm.blocks[key.block]? with
    | none => none
    | some e =>
      match e.2.get_model key.augment 0 with
      | none => none
      | some mesh => some (some mesh)

def localX (bi : Nat) : Nat := bi % CHUNK_WIDTH

def localY (bi : Nat) : Nat := bi / CHUNK_AREA

def localZ (bi : Nat) : Nat := (bi % CHUNK_AREA) / CHUNK_WIDTH

/-- Absolute x of a block index (chunk.rs line 62). -/
def absX (chunk : Chunk) (bi : Nat) : Int := chunk.pos.1 * 16 + (localX bi : Nat)

/-- Absolute z of a block index (chunk.rs line 63). -/
def absZ (chunk : Chunk) (bi : Nat) : Int := chunk.pos.2 * 16 + (localZ bi : Nat)

def absY (bi : Nat) : Int := (localY bi : Nat)

/-- The state the scan reads for a block index (chunk.rs line 65). -/
def cellState (chunk : Chunk) (sp : BlockStateProvider) (bi : Nat) : ChunkBlockState :=
  sp.get_state (absX chunk bi) (absY bi) (absZ chunk bi)

/-- One neighbour-occlusion answer (chunk.rs lines 86-156, the repeated
block): resolve the neighbour state through get_block; Air gives
"render the face" (true); a resolved mesh answers with `models[0].1`
(index 0 panics when the models list is empty); a panic inside get_block
propagates. -/
def neighborPermits (bm : BlockManager) (st : ChunkBlockState) : Option Bool :=
  match get_block bm st with
  | none => none
  | some none => some true
  | some (some mesh) => (mesh.models[0]?).map (·.2)

/-- Vertices of one optional face, pushed through the caller's mapper with
the cell's local coordinates (chunk.rs lines 158-205). -/
def mapFace {T : Type} (mapper : BlockMeshVertex → Nat → Nat → Nat → BlockstateKey → T)
    (bi : Nat) (key : BlockstateKey) (face : Option (List BlockMeshVertex)) : List T :=
  match face with
  | none => []
  | some vs => vs.map (fun v => mapper v (localX bi) (localY bi) (localZ bi) key)

/-- Body of bake's loop for one visited block index (chunk.rs lines 62-226):
read the state, skip air, apply the filter, resolve the mesh (unwrap),
then for a Cube model emit each present face whose neighbour permits it,
in source order north, east, south, west, up, down; for a Complex model
emit all face groups unconditionally.  `none` is a panic. -/
def emitCell {T : Type} (bm : BlockManager) (chunk : Chunk)
    (mapper : BlockMeshVertex → Nat → Nat → Nat → BlockstateKey → T)
    (filter : BlockstateKey → Bool) (sp : BlockStateProvider) (bi : Nat) :
    Option (List T) :=
  match cellState chunk sp bi with
  | .Air => some []
  | .State key =>
    if filter key then
      match get_block bm (.State key) with
      | none => none
      | some none => none
      | some (some mesh) =>
        match mesh.models[0]? with
        | none => none
        | some (CubeOrComplexMesh.Cube model, _) =>
          match neighborPermits bm (sp.get_state (absX chunk bi) (absY bi) (absZ chunk bi - 1)),
                neighborPermits bm (sp.get_state (absX chunk bi) (absY bi) (absZ chunk bi + 1)),
                neighborPermits bm (sp.get_state (absX chunk bi) (absY bi + 1) (absZ chunk bi)),
                neighborPermits bm (sp.get_state (absX chunk bi) (absY bi - 1) (absZ chunk bi)),
                neighborPermits bm (sp.get_state (absX chunk bi - 1) (absY bi) (absZ chunk bi)),
                neighborPermits bm (sp.get_state (absX chunk bi + 1) (absY bi) (absZ chunk bi)) with
          | some rn, some rs, some ru, some rd, some rw, some re =>
            some ((if rn then mapFace mapper bi key model.north else []) ++
                  (if re then mapFace mapper bi key model.east else []) ++
                  (if rs then mapFace mapper bi key model.south else []) ++
                  (if rw then mapFace mapper bi key model.west else []) ++
                  (if ru then mapFace mapper bi key model.up else []) ++
                  (if rd then mapFace mapper bi key model.down else []))
          | _, _, _, _, _, _ => none
        | some (CubeOrComplexMesh.Complex models, _) =>
          some (((models.flatMap
                    (fun fg => [fg.north, fg.east, fg.south, fg.west, fg.up, fg.down])).flatMap
                  (fun o => o.getD [])).map
                 (fun v => mapper v (localX bi) (localY bi) (localZ bi) key))
    else some []

/-- The scan loop of bake (chunk.rs lines 43-227).  The loop is fueled for
structural recursion; one unit of fuel is one iteration, and the index
check plus the per-step advance of at least one make `CHUNK_VOLUME` fuel
equivalent to the unbounded source loop (see bakeLoop_fuel). -/
def bakeLoop {T : Type} (bm : BlockManager) (chunk : Chunk)
    (mapper : BlockMeshVertex → Nat → Nat → Nat → BlockstateKey → T)
    (filter : BlockstateKey → Bool) (sp : BlockStateProvider) :
    Nat → Nat → Option (List T)
  | 0, _ => some []
  | fuel + 1, block_index =>
    if CHUNK_VOLUME ≤ block_index then some []
    else if localX block_index = 0 ∧ localZ block_index = 0 ∧
            localY block_index % CHUNK_SECTION_HEIGHT = 0 ∧
            sp.is_section_empty (localY block_index / CHUNK_SECTION_HEIGHT) = true then
      bakeLoop bm chunk mapper filter sp fuel (block_index + CHUNK_SECTION_HEIGHT * CHUNK_AREA)
    else
      match emitCell bm chunk mapper filter sp block_index with
      | none => none
      | some vs => (bakeLoop bm chunk mapper filter sp fuel (block_index + 1)).map (vs ++ ·)

/-- bake (render/world/chunk.rs lines 26-230). -/
def bake {T : Type} (bm : BlockManager) (chunk : Chunk)
    (mapper : BlockMeshVertex → Nat → Nat → Nat → BlockstateKey → T)
    (filter : BlockstateKey → Bool) (sp : BlockStateProvider) : Option (List T) :=
  bakeLoop bm chunk mapper filter sp CHUNK_VOLUME 0

/-! ## Generic loop lemmas -/

theorem bakeLoop_fuel {T : Type} (bm : BlockManager) (chunk : Chunk)
    (mapper : BlockMeshVertex → Nat → Nat → Nat → BlockstateKey → T)
    (filter : BlockstateKey → Bool) (sp : BlockStateProvider) :
    ∀ fuel₁ fuel₂ bi, CHUNK_VOLUME - bi ≤ fuel₁ → CHUNK_VOLUME - bi ≤ fuel₂ →
      bakeLoop bm chunk mapper filter sp fuel₁ bi = bakeLoop bm chunk mapper filter sp fuel₂ bi := by
  intro fuel₁
  induction fuel₁ with
  | zero =>
    intro fuel₂ bi h1 _
    cases fuel₂ with
    | zero => rfl
    | succ f =>
      have hbi : CHUNK_VOLUME ≤ bi := by omega
      simp [bakeLoop, hbi]
  | succ f ih =>
    intro fuel₂ bi h1 h2
    cases fuel₂ with
    | zero =>
      have hbi : CHUNK_VOLUME ≤ bi := by omega
      simp [bakeLoop, hbi]
    | succ g =>
      by_cases hbi : CHUNK_VOLUME ≤ bi
      · simp [bakeLoop, hbi]
      · by_cases hskip : localX bi = 0 ∧ localZ bi = 0 ∧
            localY bi % CHUNK_SECTION_HEIGHT = 0 ∧
            sp.is_section_empty (localY bi / CHUNK_SECTION_HEIGHT) = true
        · simp only [bakeLoop, if_neg hbi, if_pos hskip]
          exact ih g (bi + CHUNK_SECTION_HEIGHT * CHUNK_AREA)
            (by simp [CHUNK_SECTION_HEIGHT, CHUNK_AREA, CHUNK_WIDTH] at *; omega)
            (by simp [CHUNK_SECTION_HEIGHT, CHUNK_AREA, CHUNK_WIDTH] at *; omega)
        · simp only [bakeLoop, if_neg hbi, if_neg hskip]
          have := ih g (bi + 1) (by omega) (by omega)
          rw [this]

/-- An all-air cell emits nothing. -/
theorem emitCell_air {T : Type} (bm : BlockManager) (chunk : Chunk)
    (mapper : BlockMeshVertex → Nat → Nat → Nat → BlockstateKey → T)
    (filter : BlockstateKey → Bool) (sp : BlockStateProvider) (bi : Nat)
    (h : cellState chunk sp bi = .Air) :
    emitCell bm chunk mapper filter sp bi = some [] := by
  unfold emitCell
  rw [h]

/-- C8 helper: with an all-air provider every loop suffix is empty. -/
theorem bakeLoop_all_air {T : Type} (bm : BlockManager) (chunk : Chunk)
    (mapper : BlockMeshVertex → Nat → Nat → Nat → BlockstateKey → T)
    (filter : BlockstateKey → Bool) (sp : BlockStateProvider)
    (hair : ∀ x y z, sp.get_state x y z = .Air) :
    ∀ fuel bi, bakeLoop bm chunk mapper filter sp fuel bi = some [] := by
  intro fuel
  induction fuel with
  | zero => intro bi; rfl
  | succ f ih =>
    intro bi
    by_cases hbi : CHUNK_VOLUME ≤ bi
    · simp [bakeLoop, hbi]
    · by_cases hskip : localX bi = 0 ∧ localZ bi = 0 ∧
          localY bi % CHUNK_SECTION_HEIGHT = 0 ∧
          sp.is_section_empty (localY bi / CHUNK_SECTION_HEIGHT) = true
      · simp only [bakeLoop, if_neg hbi, if_pos hskip]
        exact ih _
      · simp only [bakeLoop, if_neg hbi, if_neg hskip]
        rw [emitCell_air bm chunk mapper filter sp bi (by unfold cellState; rw [hair])]
        rw [ih (bi + 1)]
        rfl

/-- C8: for every chunk whose block grid contains only air cells (every
get_state query answers Air), bake returns the empty sequence, for every
block manager, mapper, filter and section-emptiness oracle. -/
theorem bake_all_air {T : Type} (bm : BlockManager) (chunk : Chunk)
    (mapper : BlockMeshVertex → Nat → Nat → Nat → BlockstateKey → T)
    (filter : BlockstateKey → Bool) (sp : BlockStateProvider)
    (hair : ∀ x y z, sp.get_state x y z = .Air) :
    bake bm chunk mapper filter sp = some [] :=
  bakeLoop_all_air bm chunk mapper filter sp hair CHUNK_VOLUME 0

/-- Concrete all-air provider for the C8 witness. -/
def spAllAir : BlockStateProvider where
  get_state := fun _ _ _ => .Air
  is_section_empty := fun _ => false

/-- Witness for C8 at a concrete provider, manager and chunk. -/
theorem bake_all_air_witness :
    bake ⟨[]⟩ ⟨(0, 0)⟩ (fun v _ _ _ _ => v) (fun _ => true) spAllAir = some [] :=
  bake_all_air ⟨[]⟩ ⟨(0, 0)⟩ (fun v _ _ _ _ => v) (fun _ => true) spAllAir
    (fun _ _ _ => rfl)

/-! ## C2: the section-skip optimization against a full scan -/

/-- Modelled from the spec §4.2 step 2: the reference scan that "visits
every cell individually" — bake's loop with the section-skip branch
removed, all else identical. -/
def bakeFullLoop {T : Type} (bm : BlockManager) (chunk : Chunk)
    (mapper : BlockMeshVertex → Nat → Nat → Nat → BlockstateKey → T)
    (filter : BlockstateKey → Bool) (sp : BlockStateProvider) :
    Nat → Nat → Option (List T)
  | 0, _ => some []
  | fuel + 1, bi =>
    if CHUNK_VOLUME ≤ bi then some []
    else
      match emitCell bm chunk mapper filter sp bi with
      | none => none
      | some vs => (bakeFullLoop bm chunk mapper filter sp fuel (bi + 1)).map (vs ++ ·)

/-- Modelled from the spec §4.2 step 2: bake without the section-skip
optimization. -/
def bake_full {T : Type} (bm : BlockManager) (chunk : Chunk)
    (mapper : BlockMeshVertex → Nat → Nat → Nat → BlockstateKey → T)
    (filter : BlockstateKey → Bool) (sp : BlockStateProvider) : Option (List T) :=
  bakeFullLoop bm chunk mapper filter sp CHUNK_VOLUME 0

theorem map_nil_append {T : Type} (o : Option (List T)) :
    o.map (fun l => [] ++ l) = o := by
  cases o <;> rfl

theorem bakeFullLoop_fuel {T : Type} (bm : BlockManager) (chunk : Chunk)
    (mapper : BlockMeshVertex → Nat → Nat → Nat → BlockstateKey → T)
    (filter : BlockstateKey → Bool) (sp : BlockStateProvider) :
    ∀ fuel₁ fuel₂ bi, CHUNK_VOLUME - bi ≤ fuel₁ → CHUNK_VOLUME - bi ≤ fuel₂ →
      bakeFullLoop bm chunk mapper filter sp fuel₁ bi
        = bakeFullLoop bm chunk mapper filter sp fuel₂ bi := by
  intro fuel₁
  induction fuel₁ with
  | zero =>
    intro fuel₂ bi h1 _
    cases fuel₂ with
    | zero => rfl
    | succ f =>
      have hbi : CHUNK_VOLUME ≤ bi := by omega
      simp [bakeFullLoop, hbi]
  | succ f ih =>
    intro fuel₂ bi h1 h2
    cases fuel₂ with
    | zero =>
      have hbi : CHUNK_VOLUME ≤ bi := by omega
      simp [bakeFullLoop, hbi]
    | succ g =>
      by_cases hbi : CHUNK_VOLUME ≤ bi
      · simp [bakeFullLoop, hbi]
      · simp only [bakeFullLoop, if_neg hbi]
        rw [ih g (bi + 1) (by omega) (by omega)]

/-- A run of air cells contributes nothing to the full scan. -/
theorem bakeFullLoop_air_run {T : Type} (bm : BlockManager) (chunk : Chunk)
    (mapper : BlockMeshVertex → Nat → Nat → Nat → BlockstateKey → T)
    (filter : BlockstateKey → Bool) (sp : BlockStateProvider) :
    ∀ n fuel bi, CHUNK_VOLUME - bi ≤ fuel → bi + n ≤ CHUNK_VOLUME →
      (∀ j, j < n → cellState chunk sp (bi + j) = .Air) →
      bakeFullLoop bm chunk mapper filter sp fuel bi
        = bakeFullLoop bm chunk mapper filter sp (fuel - n) (bi + n) := by
  intro n
  induction n with
  | zero => intro fuel bi _ _ _; simp
  | succ n ih =>
    intro fuel bi hfuel hlt hair
    have hbi : ¬ CHUNK_VOLUME ≤ bi := by omega
    cases fuel with
    | zero => omega
    | succ f =>
      simp only [bakeFullLoop, if_neg hbi]
      rw [emitCell_air bm chunk mapper filter sp bi
        (by have := hair 0 (by omega); simpa using this)]
      show (bakeFullLoop bm chunk mapper filter sp f (bi + 1)).map (fun l => [] ++ l) = _
      rw [map_nil_append]
      have step := ih f (bi + 1) (by omega) (by omega)
        (fun j hj => by have := hair (j + 1) (by omega); rw [← this]; ring_nf)
      rw [step]
      have h1 : f - n = f + 1 - (n + 1) := by omega
      have h2 : bi + 1 + n = bi + (n + 1) := by omega
      rw [h1, h2]

theorem bakeLoop_eq_fullLoop {T : Type} (bm : BlockManager) (chunk : Chunk)
    (mapper : BlockMeshVertex → Nat → Nat → Nat → BlockstateKey → T)
    (filter : BlockstateKey → Bool) (sp : BlockStateProvider)
    (hsec : ∀ s, sp.is_section_empty s = true →
      ∀ bi, bi < CHUNK_VOLUME → localY bi / CHUNK_SECTION_HEIGHT = s →
        cellState chunk sp bi = .Air) :
    ∀ fuel bi, CHUNK_VOLUME - bi ≤ fuel →
      bakeLoop bm chunk mapper filter sp fuel bi
        = bakeFullLoop bm chunk mapper filter sp fuel bi := by
  intro fuel
  induction fuel with
  | zero => intro bi _; rfl
  | succ f ih =>
    intro bi hfuel
    by_cases hbi : CHUNK_VOLUME ≤ bi
    · simp [bakeLoop, bakeFullLoop, hbi]
    · by_cases hskip : localX bi = 0 ∧ localZ bi = 0 ∧
          localY bi % CHUNK_SECTION_HEIGHT = 0 ∧
          sp.is_section_empty (localY bi / CHUNK_SECTION_HEIGHT) = true
      · obtain ⟨hx, hz, hy, hemp⟩ := hskip
        have hV : CHUNK_VOLUME = 65536 := rfl
        have hxe : bi % 16 = 0 := hx
        have hze : bi % 256 / 16 = 0 := hz
        have hye : bi / 256 % 16 = 0 := hy
        have hmod : bi % 4096 = 0 := by omega
        have hstep : CHUNK_SECTION_HEIGHT * CHUNK_AREA = 4096 := rfl
        have hbound : bi + 4096 ≤ CHUNK_VOLUME := by omega
        have hair : ∀ j, j < 4096 → cellState chunk sp (bi + j) = .Air := by
          intro j hj
          refine hsec (localY bi / CHUNK_SECTION_HEIGHT) hemp (bi + j) (by omega) ?_
          have e1 : localY (bi + j) / CHUNK_SECTION_HEIGHT = (bi + j) / 256 / 16 := rfl
          have e2 : localY bi / CHUNK_SECTION_HEIGHT = bi / 256 / 16 := rfl
          rw [e1, e2]
          omega
        simp only [bakeLoop, if_neg hbi, if_pos (⟨hx, hz, hy, hemp⟩ :
          localX bi = 0 ∧ localZ bi = 0 ∧
          localY bi % CHUNK_SECTION_HEIGHT = 0 ∧
          sp.is_section_empty (localY bi / CHUNK_SECTION_HEIGHT) = true)]
        rw [hstep]
        rw [ih (bi + 4096) (by omega)]
        rw [bakeFullLoop_fuel bm chunk mapper filter sp f (f + 1 - 4096) (bi + 4096)
          (by omega) (by omega)]
        have hfull := bakeFullLoop_air_run bm chunk mapper filter sp 4096 (f + 1) bi
          (by omega) hbound hair
        rw [← hfull]
      · simp only [bakeLoop, bakeFullLoop, if_neg hbi, if_neg hskip]
        cases hem : emitCell bm chunk mapper filter sp bi with
        | none => rfl
        | some vs => rw [ih (bi + 1) (by omega)]

/-- C2: bake with the section-skip optimization produces output identical,
element for element (including the panic behaviour), to the scan that
visits every cell individually, for every grid whose is_section_empty
answers are correct: a section reported empty contains only air at all the
coordinates the scan would read for it. -/
theorem bake_eq_bake_full {T : Type} (bm : BlockManager) (chunk : Chunk)
    (mapper : BlockMeshVertex → Nat → Nat → Nat → BlockstateKey → T)
    (filter : BlockstateKey → Bool) (sp : BlockStateProvider)
    (hsec : ∀ s, sp.is_section_empty s = true →
      ∀ bi, bi < CHUNK_VOLUME → localY bi / CHUNK_SECTION_HEIGHT = s →
        cellState chunk sp bi = .Air) :
    bake bm chunk mapper filter sp = bake_full bm chunk mapper filter sp :=
  bakeLoop_eq_fullLoop bm chunk mapper filter sp hsec CHUNK_VOLUME 0 (by omega)

/-- Concrete provider for the C2 witness: everything air and every section
reported empty (a correct oracle for this grid). -/
def spEmptyReported : BlockStateProvider where
  get_state := fun _ _ _ => .Air
  is_section_empty := fun _ => true

/-- Witness for C2 at a concrete correct provider. -/
theorem bake_eq_bake_full_witness :
    bake ⟨[]⟩ ⟨(0, 0)⟩ (fun v _ _ _ _ => v) (fun _ => true) spEmptyReported
      = bake_full ⟨[]⟩ ⟨(0, 0)⟩ (fun v _ _ _ _ => v) (fun _ => true) spEmptyReported :=
  bake_eq_bake_full ⟨[]⟩ ⟨(0, 0)⟩ (fun v _ _ _ _ => v) (fun _ => true) spEmptyReported
    (fun _ _ _ _ _ => rfl)

/-! ## C10: the precondition under which bake is total -/

/-- Occlusion-side precondition on one neighbour state: Air needs nothing;
a present state must have an in-bounds block index, a resolvable model and
a non-empty models list (chunk.rs reads `models[0].1` of the neighbour). -/
def neighborOk (bm : BlockManager) (st : ChunkBlockState) : Bool :=
  match st with
  | .Air => true
  | .State key =>
    match bm.blocks[key.block]? with
    | none => false
    | some e =>
      match e.2.get_model key.augment 0 with
      | none => false
      | some mesh => (mesh.models[0]?).isSome

theorem neighborPermits_isSome (bm : BlockManager) (st : ChunkBlockState) :
    (neighborPermits bm st).isSome = neighborOk bm st := by
  cases st with
  | Air => rfl
  | State key =>
    simp only [neighborPermits, get_block, neighborOk]
    cases h1 : bm.blocks[key.block]? with
    | none => simp
    | some e =>
      simp only []
      cases h2 : e.2.get_model key.augment 0 with
      | none => simp
      | some mesh =>
        simp only []
        cases h3 : mesh.models[0]? <;> simp

/-- Scan precondition for one visited cell: an air or filtered-out cell
needs nothing; otherwise its state must resolve (in-bounds block index, a
model, a non-empty models list) and, when the first model is a cube, each
of the six neighbour states must satisfy neighborOk. -/
def cellOk (bm : BlockManager) (chunk : Chunk) (filter : BlockstateKey → Bool)
    (sp : BlockStateProvider) (bi : Nat) : Bool :=
  match cellState chunk sp bi with
  | .Air => true
  | .State key =>
    if filter key then
      match bm.blocks[key.block]? with
      | none => false
      | some e =>
        match e.2.get_model key.augment 0 with
        | none => false
        | some mesh =>
          match mesh.models[0]? with
          | none => false
          | some (CubeOrComplexMesh.Cube _, _) =>
            neighborOk bm (sp.get_state (absX chunk bi) (absY bi) (absZ chunk bi - 1)) &&
            neighborOk bm (sp.get_state (absX chunk bi) (absY bi) (absZ chunk bi + 1)) &&
            neighborOk bm (sp.get_state (absX chunk bi) (absY bi + 1) (absZ chunk bi)) &&
            neighborOk bm (sp.get_state (absX chunk bi) (absY bi - 1) (absZ chunk bi)) &&
            neighborOk bm (sp.get_state (absX chunk bi - 1) (absY bi) (absZ chunk bi)) &&
            neighborOk bm (sp.get_state (absX chunk bi + 1) (absY bi) (absZ chunk bi))
          | some (CubeOrComplexMesh.Complex _, _) => true
    else true

theorem emitCell_isSome {T : Type} (bm : BlockManager) (chunk : Chunk)
    (mapper : BlockMeshVertex → Nat → Nat → Nat → BlockstateKey → T)
    (filter : BlockstateKey → Bool) (sp : BlockStateProvider) (bi : Nat) :
    (emitCell bm chunk mapper filter sp bi).isSome = cellOk bm chunk filter sp bi := by
  cases hs : cellState chunk sp bi with
  | Air => simp [emitCell, cellOk, hs]
  | State key =>
    simp only [emitCell, cellOk, hs]
    by_cases hf : filter key
    · simp only [if_pos hf, get_block]
      cases h1 : bm.blocks[key.block]? with
      | none => simp
      | some e =>
        simp only []
        cases h2 : e.2.get_model key.augment 0 with
        | none => simp
        | some mesh =>
          simp only []
          cases h3 : mesh.models[0]? with
          | none => simp
          | some pair =>
            rcases pair with ⟨cube | complex, flag⟩
            · simp only []
              rw [← neighborPermits_isSome bm
                  (sp.get_state (absX chunk bi) (absY bi) (absZ chunk bi - 1)),
                ← neighborPermits_isSome bm
                  (sp.get_state (absX chunk bi) (absY bi) (absZ chunk bi + 1)),
                ← neighborPermits_isSome bm
                  (sp.get_state (absX chunk bi) (absY bi + 1) (absZ chunk bi)),
                ← neighborPermits_isSome bm
                  (sp.get_state (absX chunk bi) (absY bi - 1) (absZ chunk bi)),
                ← neighborPermits_isSome bm
                  (sp.get_state (absX chunk bi - 1) (absY bi) (absZ chunk bi)),
                ← neighborPermits_isSome bm
                  (sp.get_state (absX chunk bi + 1) (absY bi) (absZ chunk bi))]
              cases hn1 : neighborPermits bm
                  (sp.get_state (absX chunk bi) (absY bi) (absZ chunk bi - 1)) <;>
                cases hn2 : neighborPermits bm
                  (sp.get_state (absX chunk bi) (absY bi) (absZ chunk bi + 1)) <;>
                cases hn3 : neighborPermits bm
                  (sp.get_state (absX chunk bi) (absY bi + 1) (absZ chunk bi)) <;>
                cases hn4 : neighborPermits bm
                  (sp.get_state (absX chunk bi) (absY bi - 1) (absZ chunk bi)) <;>
                cases hn5 : neighborPermits bm
                  (sp.get_state (absX chunk bi - 1) (absY bi) (absZ chunk bi)) <;>
                cases hn6 : neighborPermits bm
                  (sp.get_state (absX chunk bi + 1) (absY bi) (absZ chunk bi)) <;>
                simp
            · simp
    · simp [hf]

/-- The scan precondition of bake, following the same walk (including the
section skip) but only checking resolvability instead of emitting. -/
def bakePrecondLoop (bm : BlockManager) (chunk : Chunk) (filter : BlockstateKey → Bool)
    (sp : BlockStateProvider) : Nat → Nat → Bool
  | 0, _ => true
  | fuel + 1, bi =>
    if CHUNK_VOLUME ≤ bi then true
    else if localX bi = 0 ∧ localZ bi = 0 ∧
            localY bi % CHUNK_SECTION_HEIGHT = 0 ∧
            sp.is_section_empty (localY bi / CHUNK_SECTION_HEIGHT) = true then
      bakePrecondLoop bm chunk filter sp fuel (bi + CHUNK_SECTION_HEIGHT * CHUNK_AREA)
    else cellOk bm chunk filter sp bi && bakePrecondLoop bm chunk filter sp fuel (bi + 1)

def bakePrecondition (bm : BlockManager) (chunk : Chunk) (filter : BlockstateKey → Bool)
    (sp : BlockStateProvider) : Bool :=
  bakePrecondLoop bm chunk filter sp CHUNK_VOLUME 0

theorem bakeLoop_isSome {T : Type} (bm : BlockManager) (chunk : Chunk)
    (mapper : BlockMeshVertex → Nat → Nat → Nat → BlockstateKey → T)
    (filter : BlockstateKey → Bool) (sp : BlockStateProvider) :
    ∀ fuel bi, (bakeLoop bm chunk mapper filter sp fuel bi).isSome
      = bakePrecondLoop bm chunk filter sp fuel bi := by
  intro fuel
  induction fuel with
  | zero => intro bi; rfl
  | succ f ih =>
    intro bi
    by_cases hbi : CHUNK_VOLUME ≤ bi
    · simp [bakeLoop, bakePrecondLoop, hbi]
    · by_cases hskip : localX bi = 0 ∧ localZ bi = 0 ∧
          localY bi % CHUNK_SECTION_HEIGHT = 0 ∧
          sp.is_section_empty (localY bi / CHUNK_SECTION_HEIGHT) = true
      · simp only [bakeLoop, bakePrecondLoop, if_neg hbi, if_pos hskip]
        exact ih _
      · simp only [bakeLoop, bakePrecondLoop, if_neg hbi, if_neg hskip]
        cases he : emitCell bm chunk mapper filter sp bi with
        | none =>
          have := emitCell_isSome bm chunk mapper filter sp bi
          rw [he] at this
          simp [← this]
        | some vs =>
          have := emitCell_isSome bm chunk mapper filter sp bi
          rw [he] at this
          rw [← this]
          simp [← ih (bi + 1)]

/-- C10: bake produces a value exactly when the scan precondition holds —
every non-air block state it actually resolves during the scan (at a
visited, filter-accepted cell, or as one of the six neighbours of a
cube-meshed cell) has an in-bounds block index and resolves to a model
with a non-empty models list.  When that fails, bake is `none` (a panic in
the source), not a typed error and not a skipped cell. -/
theorem bake_isSome_eq_precondition {T : Type} (bm : BlockManager) (chunk : Chunk)
    (mapper : BlockMeshVertex → Nat → Nat → Nat → BlockstateKey → T)
    (filter : BlockstateKey → Bool) (sp : BlockStateProvider) :
    (bake bm chunk mapper filter sp).isSome = bakePrecondition bm chunk filter sp :=
  bakeLoop_isSome bm chunk mapper filter sp CHUNK_VOLUME 0

/-! ## C1: face culling of a cube-mesh cell -/

/-- C1: for a visited cell holding a cube-mesh block state (passing the
filter, and with all six neighbour lookups succeeding), bake's per-cell
emission is exactly the concatenation of the six face groups, gated so
that a face is emitted precisely when the mesh defines geometry for that
face (its optional vertex list is present — mapFace of an absent face is
empty) and the neighbour in that direction, queried through the global
state provider at absolute coordinates, permits it: Air (and anything the
provider answers Air for, e.g. outside the loaded grid) gives
`neighborPermits = some true`, a resolved neighbour mesh answers with its
occlusion flag `models[0].1`, and a false flag suppresses the face.
North is z-1, south z+1, up y+1, down y-1, west x-1, east x+1. -/
theorem bake_cube_face_culling {T : Type} (bm : BlockManager) (chunk : Chunk)
    (mapper : BlockMeshVertex → Nat → Nat → Nat → BlockstateKey → T)
    (filter : BlockstateKey → Bool) (sp : BlockStateProvider) (bi : Nat)
    (key : BlockstateKey) (mesh : ModelMesh) (model : FaceGroup) (flag : Bool)
    (pN pS pU pD pW pE : Bool)
    (hst : cellState chunk sp bi = .State key)
    (hfil : filter key = true)
    (hmesh : get_block bm (.State key) = some (some mesh))
    (hcube : mesh.models[0]? = some (.Cube model, flag))
    (hN : neighborPermits bm
      (sp.get_state (absX chunk bi) (absY bi) (absZ chunk bi - 1)) = some pN)
    (hS : neighborPermits bm
      (sp.get_state (absX chunk bi) (absY bi) (absZ chunk bi + 1)) = some pS)
    (hU : neighborPermits bm
      (sp.get_state (absX chunk bi) (absY bi + 1) (absZ chunk bi)) = some pU)
    (hD : neighborPermits bm
      (sp.get_state (absX chunk bi) (absY bi - 1) (absZ chunk bi)) = some pD)
    (hW : neighborPermits bm
      (sp.get_state (absX chunk bi - 1) (absY bi) (absZ chunk bi)) = some pW)
    (hE : neighborPermits bm
      (sp.get_state (absX chunk bi + 1) (absY bi) (absZ chunk bi)) = some pE) :
    emitCell bm chunk mapper filter sp bi = some (
      (if pN then mapFace mapper bi key model.north else []) ++
      (if pE then mapFace mapper bi key model.east else []) ++
      (if pS then mapFace mapper bi key model.south else []) ++
      (if pW then mapFace mapper bi key model.west else []) ++
      (if pU then mapFace mapper bi key model.up else []) ++
      (if pD then mapFace mapper bi key model.down else [])) := by
  simp only [emitCell, hst, hfil, if_true, hmesh, hcube, hN, hS, hU, hD, hW, hE]

/-- Concrete one-cube-block world for the C1 witness: a full cube at the
origin, all six neighbours air. -/
def meshStone : ModelMesh :=
  { models := [(.Cube ⟨some [0], some [1], some [2], some [3], some [4], some [5]⟩, false)] }

def bmOne : BlockManager := ⟨[("wgpu_mc:stone", .Variants [("", [meshStone])])]⟩

def spOne : BlockStateProvider where
  get_state := fun x y z => if x = 0 ∧ y = 0 ∧ z = 0 then .State ⟨0, 0⟩ else .Air
  is_section_empty := fun s => decide (s ≠ 0)

/-- Witness for C1: the isolated cube at the origin emits all six faces. -/
theorem bake_cube_face_culling_witness :
    emitCell bmOne ⟨(0, 0)⟩ (fun v _ _ _ _ => v) (fun _ => true) spOne 0
      = some [0, 1, 2, 3, 4, 5] :=
  bake_cube_face_culling bmOne ⟨(0, 0)⟩ (fun v _ _ _ _ => v) (fun _ => true) spOne 0
    ⟨0, 0⟩ meshStone ⟨some [0], some [1], some [2], some [3], some [4], some [5]⟩ false
    true true true true true true rfl rfl rfl rfl rfl rfl rfl rfl rfl rfl

/-! ## C3: a block-manager miss on a neighbour is a panic, not air -/

/-- Provider with a cube at the origin whose north neighbour carries a
block index (7) that is out of bounds for the block manager. -/
def spMissNeighbor : BlockStateProvider where
  get_state := fun x y z =>
    if x = 0 ∧ y = 0 ∧ z = 0 then .State ⟨0, 0⟩
    else if x = 0 ∧ y = 0 ∧ z = -1 then .State ⟨7, 0⟩
    else .Air
  is_section_empty := fun s => decide (s ≠ 0)

/-- C3 counterexample: with a visited cube cell whose north neighbour's
state misses the block manager (index 7, out of bounds for the one-entry
manager), bake does not treat the neighbour as air — it panics (`none`),
refuting "bake never fails because of a missing neighbor mesh". -/
theorem bake_neighbor_miss_panics :
    bake bmOne ⟨(0, 0)⟩ (fun v _ _ _ _ => v) (fun _ => true) spMissNeighbor = none := by
  rfl

/-- C3 amended: an Air neighbour state (the only case where get_block
returns no mesh without panicking) defaults to "render the face"; but a
neighbour state whose block index misses the block manager makes the
occlusion test — and hence bake — panic (`none`), it is not treated as
air. -/
theorem neighbor_miss_amended (bm : BlockManager) (key : BlockstateKey)
    (h : bm.blocks[key.block]? = none) :
    neighborPermits bm .Air = some true ∧ neighborPermits bm (.State key) = none := by
  refine ⟨rfl, ?_⟩
  simp only [neighborPermits, get_block, h]

/-- Witness for the amended C3 at the concrete one-entry manager. -/
theorem neighbor_miss_amended_witness :
    neighborPermits bmOne .Air = some true ∧ neighborPermits bmOne (.State ⟨7, 0⟩) = none :=
  neighbor_miss_amended bmOne ⟨7, 0⟩ rfl

/-! ## IndexMap lemmas -/

theorem idxLookupFrom_none_insert {α : Type} (s : String) (v : α) :
    ∀ (m : List (String × α)) (i : Nat), idxLookupFrom i m s = none →
      idxInsert m s v = m ++ [(s, v)] := by
  intro m
  induction m with
  | nil => intro i _; rfl
  | cons kv rest ih =>
    intro i h
    by_cases hk : kv.1 = s
    · simp [idxLookupFrom, hk] at h
    · simp only [idxLookupFrom, if_neg hk] at h
      simp [idxInsert, hk, ih (i + 1) h]

theorem idxLookup_none_insert {α : Type} (m : List (String × α)) (s : String) (v : α)
    (h : idxLookup m s = none) : idxInsert m s v = m ++ [(s, v)] :=
  idxLookupFrom_none_insert s v m 0 h

theorem idxLookupFrom_append_self {α : Type} (s : String) (v : α) :
    ∀ (m : List (String × α)) (i : Nat), idxLookupFrom i m s = none →
      idxLookupFrom i (m ++ [(s, v)]) s = some (i + m.length, v) := by
  intro m
  induction m with
  | nil => intro i _; simp [idxLookupFrom]
  | cons kv rest ih =>
    intro i h
    by_cases hk : kv.1 = s
    · simp [idxLookupFrom, hk] at h
    · simp only [idxLookupFrom, if_neg hk] at h
      have h2 := ih (i + 1) h
      simp only [List.cons_append, idxLookupFrom, if_neg hk, List.length_cons]
      show idxLookupFrom (i + 1) (rest ++ [(s, v)]) s = some (i + (rest.length + 1), v)
      rw [h2]
      simp only [Option.some.injEq, Prod.mk.injEq]
      refine ⟨by omega, ?_⟩
      trivial

theorem idxLookup_append_self {α : Type} (m : List (String × α)) (s : String) (v : α)
    (h : idxLookup m s = none) : idxLookup (m ++ [(s, v)]) s = some (m.length, v) := by
  have := idxLookupFrom_append_self s v m 0 h
  simpa [idxLookup] using this

theorem u16sub1_succ (n : Nat) : u16sub1 (n + 1) = u16ofNat n := by
  simp only [u16sub1, u16ofNat]
  omega

/-! ## C5: resolve is idempotent in its handle -/

/-- C5: get_model_by_key is idempotent in its handle: for every block,
bake environment and state-property sequence, calling it twice in
succession (the second call on the state the first one left behind)
returns the same handle both times — on a Multipart first miss, the
inserted entry's position equals the handle computed from the new cache
length, so the second call's read hit agrees. -/
theorem get_model_by_key_idempotent (b : Block) (env : BakeEnv)
    (props : List (String × StateValue)) (seed : Nat) :
    ((b.get_model_by_keyS env props seed).1).map (Option.map Prod.snd)
      = (((b.get_model_by_keyS env props seed).2.get_model_by_keyS env props seed).1).map
          (Option.map Prod.snd) := by
  cases b with
  | Variants variants =>
    simp only [Block.get_model_by_keyS]
    cases h : idxLookup variants (canonKey props) with
    | none => simp [Block.get_model_by_keyS, h]
    | some full =>
      cases h0 : full.2[0]? <;> simp [Block.get_model_by_keyS, h, h0]
  | Multipart m =>
    simp only [Block.get_model_by_keyS]
    cases h : idxLookup m.keys (canonKey props) with
    | some full => simp [Block.get_model_by_keyS, h]
    | none =>
      cases hg : m.generate_mesh env props with
      | none => simp [Block.get_model_by_keyS, h, hg]
      | some mesh =>
        have happ := idxLookup_none_insert m.keys (canonKey props) mesh h
        have hfind := idxLookup_append_self m.keys (canonKey props) mesh h
        simp only [Block.get_model_by_keyS, h, hg, happ, hfind, List.length_append,
          List.length_cons, List.length_nil, Option.map_some, Option.map_some']
        rw [u16sub1_succ]

/-! ## C6: Variants resolution picks candidate index 0, seed-independently -/

/-- C6: for a Variants block, both resolution paths ignore the seed and
deterministically select the candidate mesh at index 0 of the entry's
candidate list: get_model's answer is independent of the seed and equals
the head candidate, and get_model_by_key's answer is independent of the
seed and pairs the head candidate with the entry's table index as u16. -/
theorem variants_pick_index_zero (variants : List (String × List ModelMesh))
    (k seed seed' : Nat) (env : BakeEnv) (props : List (String × StateValue))
    (i : Nat) (s : String) (cs : List ModelMesh) (c : ModelMesh) :
    (Block.get_model (.Variants variants) k seed
      = Block.get_model (.Variants variants) k seed')
    ∧ (variants[k]? = some (s, cs) → cs[0]? = some c →
        Block.get_model (.Variants variants) k seed = some c)
    ∧ ((Block.get_model_by_keyS (.Variants variants) env props seed).1
        = (Block.get_model_by_keyS (.Variants variants) env props seed').1)
    ∧ (idxLookup variants (canonKey props) = some (i, cs) → cs[0]? = some c →
        (Block.get_model_by_keyS (.Variants variants) env props seed).1
          = some (some (c, u16ofNat i))) := by
  refine ⟨rfl, ?_, rfl, ?_⟩
  · intro h1 h2
    simp [Block.get_model, h1, h2]
  · intro h1 h2
    simp [Block.get_model_by_keyS, h1, h2]

/-- Second candidate mesh, so the C6 witness entry holds multiple
candidates. -/
def meshDirt : ModelMesh := { models := [(.Complex [], true)] }

def variantsTwo : List (String × List ModelMesh) := [("", [meshStone, meshDirt])]

def envConst : BakeEnv := ⟨fun _ => some meshStone⟩

/-- Witness for C6: a two-candidate entry resolves to candidate 0 under
two different seeds. -/
theorem variants_pick_index_zero_witness :
    (Block.get_model (.Variants variantsTwo) 0 3
      = Block.get_model (.Variants variantsTwo) 0 9)
    ∧ (Block.get_model (.Variants variantsTwo) 0 3 = some meshStone)
    ∧ ((Block.get_model_by_keyS (.Variants variantsTwo) envConst [] 3).1
        = (Block.get_model_by_keyS (.Variants variantsTwo) envConst [] 9).1)
    ∧ ((Block.get_model_by_keyS (.Variants variantsTwo) envConst [] 3).1
        = some (some (meshStone, u16ofNat 0))) := by
  have h := variants_pick_index_zero variantsTwo 0 3 9 envConst [] 0 ""
    [meshStone, meshDirt] meshStone
  exact ⟨h.1, h.2.1 rfl rfl, h.2.2.1, h.2.2.2 rfl rfl⟩

/-! ## C4: the Multipart cache handle under concurrent access

The Multipart path of get_model_by_key (mc/mod.rs lines 90-103) touches
shared state at exactly two lock acquisitions: the read-locked lookup
(lines 91-95) and the write-locked insert-plus-length (lines 99-102);
generate_mesh runs between them without any lock and touches no shared
state.  The concurrent execution is therefore modelled as an interleaving
machine whose atomic steps are those two lock regions; the pure
generate_mesh is folded into the read step. -/

/-- A caller's position inside get_model_by_key's Multipart path:
before the read-locked lookup; after a miss with its locally generated
mesh, waiting for the write lock; or finished (none = the generate
unwrap panicking). -/
inductive CallerPhase where
  | start : CallerPhase
  | pendingInsert : ModelMesh → CallerPhase
  | done : Option (ModelMesh × Nat) → CallerPhase

structure CallerSt where
  props : List (String × StateValue)
  phase : CallerPhase

/-- A configuration: the shared Multipart cache plus each caller's state. -/
structure MultipartRun where
  cache : List (String × ModelMesh)
  callers : List CallerSt

/-- One atomic step of one caller (mc/mod.rs lines 91-95 for start,
lines 99-102 for pendingInsert). -/
def callerStep (cases : List Case) (env : BakeEnv)
    (cache : List (String × ModelMesh)) (c : CallerSt) :
    CallerSt × List (String × ModelMesh) :=
  match c.phase with
  | .start =>
    match idxLookup cache (canonKey c.props) with
    | some full => ({ c with phase := .done (some (full.2, u16ofNat full.1)) }, cache)
    | none =>
      match Multipart.generate_mesh ⟨cases, cache⟩ env c.props with
      | none => ({ c with phase := .done none }, cache)
      | some mesh => ({ c with phase := .pendingInsert mesh }, cache)
  | .pendingInsert mesh =>
    (⟨c.props, .done (some (mesh, u16sub1 (idxInsert cache (canonKey c.props) mesh).length))⟩,
      idxInsert cache (canonKey c.props) mesh)
  | .done _ => (c, cache)

def machineStep (cases : List Case) (env : BakeEnv) (run : MultipartRun) (i : Nat) :
    MultipartRun :=
  match run.callers[i]? with
  | none => run
  | some c =>
    let sc := callerStep cases env run.cache c
    { cache := sc.2, callers := run.callers.set i sc.1 }

/-- Run a schedule: at each tick, the named caller performs its next
atomic step. -/
def runSched (cases : List Case) (env : BakeEnv) :
    List Nat → MultipartRun → MultipartRun
  | [], run => run
  | i :: rest, run => runSched cases env rest (machineStep cases env run i)

def callerHandle (c : CallerSt) : Option Nat :=
  match c.phase with
  | .done (some r) => some r.2
  | _ => none

def propsK : List (String × StateValue) := [("a", .str "1")]

def propsL : List (String × StateValue) := [("b", .str "2")]

/-- Three callers on a fresh Multipart cache: callers 0 and 1 resolve the
same properties (canonical string "a=1"), caller 2 resolves "b=2". -/
def raceInit : MultipartRun :=
  ⟨[], [⟨propsK, .start⟩, ⟨propsK, .start⟩, ⟨propsL, .start⟩]⟩

/-- C4 failing run: callers 0 and 1 both miss on "a=1"; caller 0 inserts
(handle 0); caller 2 resolves and inserts "b=2" (handle 1); caller 1 then
re-inserts "a=1" — the IndexMap keeps its index 0, but the code computes
the handle as len-1 = 1.  The same canonical string "a=1" has received the
two different handles 0 and 1, and handle 1 simultaneously names "b=2". -/
theorem multipart_race_two_handles :
    ((runSched [] envConst [0, 1, 0, 2, 2, 1] raceInit).callers.map callerHandle
      = [some 0, some 1, some 1])
    ∧ (raceInit.callers.map (fun c => canonKey c.props) = ["a=1", "a=1", "b=2"]) := by
  constructor <;> rfl

/-! ## Render graph (render/graph.rs) -/

/-- Modelled from the spec §6 and the fields graph.rs reads from a pipeline
entry of the shader-pack configuration (render/shaderpack.rs is not among
the sources): geometry kind, output targets, optional depth target, color
clear flag, blend preset and push-constant declarations. -/
structure PipelineConfig where
  geometry : String
  output : List String
  depth : Option String
  clear : Bool
  blending : String
  push_constants : List (Nat × String)

/-- Load operation chosen for an attachment (wgpu's LoadOp, reduced to the
decision graph.rs makes). -/
inductive LoadOpKind where
  | clearOp : LoadOpKind
  | loadOp : LoadOpKind

/-- Depth-attachment decisions of RenderGraph::render (graph.rs lines
444-529): one list entry per pipeline in declaration order; `none` means
the pipeline declares no depth attachment, otherwise the depth load
operation used for its render pass.  The boolean argument is the mutable
`should_clear_depth` (line 456, initialized to true per render call); the
closure that consumes it (lines 491-493) runs exactly when the pipeline
declares a depth attachment, reads it into `will_clear_depth` and sets it
to false. -/
def renderDepthOps : Bool → List PipelineConfig → List (Option LoadOpKind)
  | _, [] => []
  | should_clear_depth, p :: rest =>
    match p.depth with
    | none => none :: renderDepthOps should_clear_depth rest
    | some _ =>
      some (if should_clear_depth then .clearOp else .loadOp) :: renderDepthOps false rest

/-- The depth decisions of one render invocation over the graph's
pipelines in declaration order. -/
def renderDepthPlan (ps : List PipelineConfig) : List (Option LoadOpKind) :=
  renderDepthOps true ps

theorem renderDepthOps_no_earlier_depth :
    ∀ (ps : List PipelineConfig) (i : Nat) (p : PipelineConfig) (flag : Bool),
      ps[i]? = some p → p.depth.isSome = true →
      (∀ j q, j < i → ps[j]? = some q → q.depth = none) →
      (renderDepthOps flag ps)[i]? = some (some (if flag then .clearOp else .loadOp)) := by
  intro ps
  induction ps with
  | nil => intro i p flag hp _ _; simp at hp
  | cons q rest ih =>
    intro i p flag hp hd hearlier
    cases i with
    | zero =>
      have hqp : q = p := by simpa using hp
      rw [← hqp] at hd
      cases hqd : q.depth with
      | none => rw [hqd] at hd; simp at hd
      | some d => simp [renderDepthOps, hqd]
    | succ i' =>
      have hq0 : q.depth = none := hearlier 0 q (by omega) (by simp)
      simp only [List.getElem?_cons_succ] at hp
      simp only [renderDepthOps, hq0, List.getElem?_cons_succ]
      exact ih i' p flag hp hd
        (fun j r hj hr => hearlier (j + 1) r (by omega) (by simpa using hr))

theorem renderDepthOps_false_loads :
    ∀ (ps : List PipelineConfig) (i : Nat) (p : PipelineConfig),
      ps[i]? = some p → p.depth.isSome = true →
      (renderDepthOps false ps)[i]? = some (some .loadOp) := by
  intro ps
  induction ps with
  | nil => intro i p hp _; simp at hp
  | cons q rest ih =>
    intro i p hp hd
    cases i with
    | zero =>
      have hqp : q = p := by simpa using hp
      rw [← hqp] at hd
      cases hqd : q.depth with
      | none => rw [hqd] at hd; simp at hd
      | some d => simp [renderDepthOps, hqd]
    | succ i' =>
      simp only [List.getElem?_cons_succ] at hp
      cases hqd : q.depth with
      | none =>
        simp only [renderDepthOps, hqd, List.getElem?_cons_succ]
        exact ih i' p hp hd
      | some d =>
        simp only [renderDepthOps, hqd, List.getElem?_cons_succ]
        exact ih i' p hp hd

theorem renderDepthOps_after_depth :
    ∀ (ps : List PipelineConfig) (i : Nat) (p : PipelineConfig) (flag : Bool),
      ps[i]? = some p → p.depth.isSome = true →
      (∃ j q, j < i ∧ ps[j]? = some q ∧ q.depth.isSome = true) →
      (renderDepthOps flag ps)[i]? = some (some .loadOp) := by
  intro ps
  induction ps with
  | nil => intro i p flag hp _ _; simp at hp
  | cons q rest ih =>
    intro i p flag hp hd hex
    obtain ⟨j, r, hj, hr, hrd⟩ := hex
    cases i with
    | zero => omega
    | succ i' =>
      simp only [List.getElem?_cons_succ] at hp
      cases hqd : q.depth with
      | some d =>
        simp only [renderDepthOps, hqd, List.getElem?_cons_succ]
        exact renderDepthOps_false_loads rest i' p hp hd
      | none =>
        cases j with
        | zero =>
          have hqr : q = r := by simpa using hr
          rw [← hqr, hqd] at hrd
          simp at hrd
        | succ j' =>
          simp only [List.getElem?_cons_succ] at hr
          simp only [renderDepthOps, hqd, List.getElem?_cons_succ]
          exact ih i' p flag hp hd ⟨j', r, by omega, hr, hrd⟩

/-- C7: in a single render invocation over the graph's pipelines in
declaration order, a depth-attached pipeline clears the depth buffer
exactly when no earlier pipeline declared a depth attachment (so exactly
the first depth-attached pipeline clears), and every depth-attached
pipeline with some earlier depth-attached pipeline loads depth without
clearing. -/
theorem render_single_depth_clear (ps : List PipelineConfig) (i : Nat)
    (p : PipelineConfig) (hp : ps[i]? = some p) (hd : p.depth.isSome = true) :
    ((∀ j q, j < i → ps[j]? = some q → q.depth = none) →
      (renderDepthPlan ps)[i]? = some (some .clearOp))
    ∧ ((∃ j q, j < i ∧ ps[j]? = some q ∧ q.depth.isSome = true) →
      (renderDepthPlan ps)[i]? = some (some .loadOp)) := by
  constructor
  · intro hearlier
    exact renderDepthOps_no_earlier_depth ps i p true hp hd hearlier
  · intro hex
    exact renderDepthOps_after_depth ps i p true hp hd hex

/-- Depth-attached terrain pipeline used by the C7 witness. -/
def pdW : PipelineConfig :=
  ⟨"@geo_terrain", ["@framebuffer_texture"], some "@texture_depth", true,
    "alpha_blending", []⟩

/-- Witness for C7 on a two-pipeline graph, both depth-attached: the first
clears, the second loads. -/
theorem render_single_depth_clear_witness :
    (renderDepthPlan [pdW, pdW])[0]? = some (some .clearOp)
    ∧ (renderDepthPlan [pdW, pdW])[1]? = some (some .loadOp) :=
  ⟨(render_single_depth_clear [pdW, pdW] 0 pdW rfl rfl).1
      (fun j q hj _ => absurd hj (by omega)),
   (render_single_depth_clear [pdW, pdW] 1 pdW rfl rfl).2
      ⟨0, pdW, by omega, rfl, rfl⟩⟩

/-! ## C9: RenderGraph::new and the built-in resource bindings -/

/-- Modelled from the spec §4.3 and graph.rs's match (lines 377-416):
typed longhand resource declarations; only the Texture2d arm carries the
data the match reads (its source path). -/
inductive TypeResourceConfig where
  | Blob : TypeResourceConfig
  | Texture3d : TypeResourceConfig
  | Texture2d : String → TypeResourceConfig
  | TextureDepth : TypeResourceConfig
  | F32 : TypeResourceConfig
  | F64 : TypeResourceConfig
  | I64 : TypeResourceConfig
  | I32 : TypeResourceConfig
  | Mat3 : TypeResourceConfig
  | Mat4 : TypeResourceConfig

/-- Modelled from the spec §4.3: shorthand scalar/matrix resource
declarations are deferred (no allocation); longhand carries a typed
declaration. -/
inductive ShorthandResourceConfig where
  | Int : ShorthandResourceConfig
  | Float : ShorthandResourceConfig
  | Mat3 : ShorthandResourceConfig
  | Mat4 : ShorthandResourceConfig
  | Longhand : TypeResourceConfig → ShorthandResourceConfig

/-- ResourceBacking (graph.rs lines 39-45); the GPU objects are opaque
numeric handles here. -/
inductive ResourceBacking where
  | Buffer : Nat → Nat → ResourceBacking
  | BufferArray : List Nat → ResourceBacking
  | Texture2D : Nat → ResourceBacking
  | Sampler : Nat → ResourceBacking

/-- Modelled from the spec §6: the parsed shader-pack configuration as the
render graph consumes it. -/
structure ShaderPackConfig where
  resources : List (String × ShorthandResourceConfig)
  pipelines : List (String × PipelineConfig)

/-- Modelled from the spec §6 and graph.rs lines 388-436: the collaborator
state RenderGraph::new reads — texture loading through the resource
provider (`none` = the source's unwrap panic on get_bytes / decode), the
block atlas texture (`none` = atlas missing, an unwrap panic at line 426)
and the default sampler. -/
structure WmState where
  loadTexture : String → Option Nat
  blockAtlasTexture : Option Nat
  defaultSampler : Nat

/-- HashMap value lookup (the std HashMap as an association list; the
insertion order idxLookup tracks is simply ignored). -/
def hmLookup {α : Type} (m : List (String × α)) (s : String) : Option α :=
  (idxLookup m s).map (·.2)

/-- The resource-installation loop of RenderGraph::new (graph.rs lines
377-416): a longhand Texture2d declaration loads and decodes its source
and inserts the texture backing under its resource id (overwriting any
same-named entry); every other declaration is a no-op. -/
def installConfigResources (wm : WmState) :
    List (String × ShorthandResourceConfig) → List (String × ResourceBacking) →
    Option (List (String × ResourceBacking))
  | [], acc => some acc
  | (rid, cfg) :: rest, acc =>
    match cfg with
    | .Longhand (.Texture2d src) =>
      match wm.loadTexture src with
      | none => none
      | some tex => installConfigResources wm rest (idxInsert acc rid (.Texture2D tex))
    | _ => installConfigResources wm rest acc

/-- The resource map RenderGraph::new hands to pipeline compilation
(graph.rs lines 370-441): the caller's map, extended by the config's
texture resources, then unconditionally extended (overwriting) with
"@texture_block_atlas" bound to the block atlas texture and "@sampler"
bound to the default sampler (lines 428-437), before create_pipelines is
called (line 439). -/
def graphNewResources (wm : WmState) (config : ShaderPackConfig)
    (resources : List (String × ResourceBacking)) :
    Option (List (String × ResourceBacking)) :=
  match installConfigResources wm config.resources resources with
  | none => none
  | some r1 =>
    match wm.blockAtlasTexture with
    | none => none
    | some atlasTex =>
      some (idxInsert (idxInsert r1 "@texture_block_atlas" (.Texture2D atlasTex))
        "@sampler" (.Sampler wm.defaultSampler))

theorem idxLookupFrom_insert_self {α : Type} (s : String) (v : α) :
    ∀ (m : List (String × α)) (i : Nat),
      (idxLookupFrom i (idxInsert m s v) s).map (·.2) = some v := by
  intro m
  induction m with
  | nil => intro i; simp [idxInsert, idxLookupFrom]
  | cons kv rest ih =>
    intro i
    by_cases hk : kv.1 = s
    · simp [idxInsert, hk, idxLookupFrom]
    · simp only [idxInsert, if_neg hk, idxLookupFrom]
      exact ih (i + 1)

theorem hmLookup_insert_self {α : Type} (m : List (String × α)) (s : String) (v : α) :
    hmLookup (idxInsert m s v) s = some v :=
  idxLookupFrom_insert_self s v m 0

theorem idxLookupFrom_insert_other {α : Type} (s t : String) (v : α) (hne : t ≠ s) :
    ∀ (m : List (String × α)) (i : Nat),
      idxLookupFrom i (idxInsert m s v) t = idxLookupFrom i m t := by
  intro m
  induction m with
  | nil =>
    intro i
    have hst : ¬ (s = t) := fun h => hne h.symm
    simp [idxInsert, idxLookupFrom, hst]
  | cons kv rest ih =>
    intro i
    by_cases hk : kv.1 = s
    · have hst : ¬ (s = t) := fun h => hne h.symm
      have hkt : ¬ (kv.1 = t) := by rw [hk]; exact hst
      simp only [idxInsert, if_pos hk, idxLookupFrom, if_neg hst, if_neg hkt]
    · simp only [idxInsert, if_neg hk, idxLookupFrom]
      by_cases hkt : kv.1 = t
      · simp [hkt]
      · rw [if_neg hkt, if_neg hkt]
        exact ih (i + 1)

theorem hmLookup_insert_other {α : Type} (m : List (String × α)) (s t : String) (v : α)
    (hne : t ≠ s) : hmLookup (idxInsert m s v) t = hmLookup m t := by
  unfold hmLookup idxLookup
  rw [idxLookupFrom_insert_other s t v hne m 0]

/-- C9: whenever RenderGraph::new reaches pipeline compilation (no panic
while loading config resources or fetching the atlas), the resource map it
compiles against binds "@texture_block_atlas" to the block-atlas texture
and "@sampler" to the default sampler — overwriting any identically named
resource supplied through the configuration or the caller's resource
map. -/
theorem new_overrides_builtin_resources (wm : WmState) (config : ShaderPackConfig)
    (resources : List (String × ResourceBacking))
    (out : List (String × ResourceBacking))
    (h : graphNewResources wm config resources = some out) :
    ∃ atlasTex, wm.blockAtlasTexture = some atlasTex
      ∧ hmLookup out "@texture_block_atlas" = some (.Texture2D atlasTex)
      ∧ hmLookup out "@sampler" = some (.Sampler wm.defaultSampler) := by
  unfold graphNewResources at h
  cases h1 : installConfigResources wm config.resources resources with
  | none => rw [h1] at h; simp at h
  | some r1 =>
    rw [h1] at h
    cases h2 : wm.blockAtlasTexture with
    | none => rw [h2] at h; simp at h
    | some atlasTex =>
      rw [h2] at h
      simp only [Option.some.injEq] at h
      refine ⟨atlasTex, rfl, ?_, ?_⟩
      · rw [← h, hmLookup_insert_other _ _ _ _ (by decide), hmLookup_insert_self]
      · rw [← h, hmLookup_insert_self]

/-- Concrete inputs for the C9 witness: the caller's map and the config
both try to bind the two reserved names; the built-ins win. -/
def wmW : WmState := ⟨fun _ => some 12, some 10, 11⟩

def configW : ShaderPackConfig :=
  ⟨[("@texture_block_atlas", .Longhand (.Texture2d "wgpu_mc:textures/atlas.png"))], []⟩

def resourcesW : List (String × ResourceBacking) :=
  [("@sampler", .Sampler 99), ("@texture_block_atlas", .Texture2D 98)]

/-- Witness for C9: with user bindings for both reserved ids (99 and 98)
and a config texture for the atlas id (12), compilation still sees the
built-ins (atlas texture 10, sampler 11). -/
theorem new_overrides_builtin_resources_witness :
    ∃ atlasTex, wmW.blockAtlasTexture = some atlasTex
      ∧ hmLookup [("@sampler", ResourceBacking.Sampler 11),
          ("@texture_block_atlas", ResourceBacking.Texture2D 10)] "@texture_block_atlas"
          = some (.Texture2D atlasTex)
      ∧ hmLookup [("@sampler", ResourceBacking.Sampler 11),
          ("@texture_block_atlas", ResourceBacking.Texture2D 10)] "@sampler"
          = some (.Sampler wmW.defaultSampler) :=
  new_overrides_builtin_resources wmW configW resourcesW
    [("@sampler", .Sampler 11), ("@texture_block_atlas", .Texture2D 10)] rfl

end WgpuMc
